import Mathlib

/-!
Shallow embedding of the translation QA checker
(`src/translation_checker.py` and `src/streamlit_app.py`).

Modelling conventions:
* Python `str` is Lean `String`; `len` counts code points on both sides.
* A Python value that may be `None` is `Option _`; `d.get(k)` on a dict is
  an `Option`-valued lookup and `d.get(k, default)` is `Option.getD`.
* Python `dict` (insertion-ordered, last-write-wins) is an association
  list `List (String × _)` with `dictInsert` replacing in place.
* `re.findall` for the three concrete patterns of the source is modelled
  by explicit left-to-right scanners (fuel = input length, each step
  consumes at least one character, matching the regex engine's
  advance-by-one on failure).
* Python float division `len(tgt) / max(1, len(src))` is modelled exactly
  over `ℚ`; `f"{ratio:.2f}"` is modelled as round-half-to-even of
  `ratio * 100` rendered with two fractional digits.
* `sorted` on lists of strings is an insertion sort over `String`'s
  code-point order, matching Python's lexicographic string order.
-/

/-- `QAIssue` dataclass of `translation_checker.py`. `uid` receives
`p.get("id")`, which is `None` when the key is missing, hence `Option`. -/
structure QAIssue where
  uid : Option String
  issue_type : String
  details : String
  source : String
  target : String
deriving DecidableEq, Repr

/-- One input pair record handed to `run_checks`: a Python dict that may
lack any of the keys `id`, `source`, `target`. -/
structure SegPair where
  id : Option String
  source : Option String
  target : Option String
deriving DecidableEq, Repr

/-- The stats dict built by `run_checks`: `{"total": ..., "issues": ...}`. -/
structure Stats where
  total : ℕ
  issues : ℕ
deriving DecidableEq, Repr

/-- ASCII model of the regex class `\w`. -/
def isWordChar (c : Char) : Bool :=
  c.isAlphanum || c = '_'

/-- Left-to-right scanner for `re.findall(r"%\w+|\{[^}]+\}|\$\w+", s)`:
at each position try `%`/`$` followed by a maximal nonempty word-char run,
or `{` followed by a nonempty run of non-`}` characters and a closing `}`;
on failure advance one character. -/
def scanPlaceholders : ℕ → List Char → List String
  | 0, _ => []
  | _ + 1, [] => []
  | n + 1, c :: rest =>
    if c = '%' || c = '$' then
      let w := rest.takeWhile isWordChar
      if w = [] then scanPlaceholders n rest
      else String.mk (c :: w) :: scanPlaceholders n (rest.drop w.length)
    else if c = '{' then
      let body := rest.takeWhile (fun d => d ≠ '}')
      if body = [] then scanPlaceholders n rest
      else
        match rest.drop body.length with
        | '}' :: after => String.mk ('{' :: (body ++ ['}'])) :: scanPlaceholders n after
        | _ => scanPlaceholders n rest
    else scanPlaceholders n rest

def findPlaceholderTokens (s : String) : List String :=
  scanPlaceholders s.toList.length s.toList

/-- Scanner for `re.findall(r"\d+", s)`: maximal runs of decimal digits. -/
def scanNumbers : ℕ → List Char → List String
  | 0, _ => []
  | _ + 1, [] => []
  | n + 1, c :: rest =>
    if c.isDigit then
      let run := rest.takeWhile Char.isDigit
      String.mk (c :: run) :: scanNumbers n (rest.drop run.length)
    else scanNumbers n rest

def findNumberTokens (s : String) : List String :=
  scanNumbers s.toList.length s.toList

/-- Scanner for `re.findall(r"<[^>]+>", s)`. -/
def scanTags : ℕ → List Char → List String
  | 0, _ => []
  | _ + 1, [] => []
  | n + 1, c :: rest =>
    if c = '<' then
      let body := rest.takeWhile (fun d => d ≠ '>')
      if body = [] then scanTags n rest
      else
        match rest.drop body.length with
        | '>' :: after => String.mk ('<' :: (body ++ ['>'])) :: scanTags n after
        | _ => scanTags n rest
    else scanTags n rest

def findTagTokens (s : String) : List String :=
  scanTags s.toList.length s.toList

/-- Lexicographic code-point comparison on character lists (Python's
string `<=`). -/
def charListLe : List Char → List Char → Bool
  | [], _ => true
  | _ :: _, [] => false
  | a :: as, b :: bs => if a < b then true else if a = b then charListLe as bs else false

/-- Insert into an ascending list: helper for the model of `sorted`. -/
def insertSorted (s : String) : List String → List String
  | [] => [s]
  | t :: ts => if charListLe s.toList t.toList then s :: t :: ts else t :: insertSorted s ts

/-- Model of Python `sorted` on a list of strings. -/
def pySorted (l : List String) : List String :=
  l.foldr insertSorted []

/-- Python `repr` of a list of strings, as interpolated by the f-strings
`f"Source={...}, Target={...}"` (quote escaping not modelled; the checker
only ever prints tokens free of quotes). -/
def pyListRepr (l : List String) : String :=
  "[" ++ String.intercalate ", " (l.map (fun s => "'" ++ s ++ "'")) ++ "]"

/-- Contiguous sublist test on characters. -/
def listInfixOf (n : List Char) : List Char → Bool
  | [] => n.isEmpty
  | c :: t => n.isPrefixOf (c :: t) || listInfixOf n t

/-- Python `in` on strings: literal (contiguous) substring test. -/
def pyIn (needle hay : String) : Bool :=
  listInfixOf needle.toList hay.toList

/-- Python `s.strip()` (ASCII whitespace model): drop leading and
trailing whitespace characters. -/
def pyStrip (s : String) : String :=
  String.mk (((s.toList.dropWhile Char.isWhitespace).reverse.dropWhile
    Char.isWhitespace).reverse)

/-- `check_placeholders` of `translation_checker.py`. -/
def check_placeholders (uid : Option String) (src tgt : String) : Option QAIssue :=
  let src_tokens := findPlaceholderTokens src
  let tgt_tokens := findPlaceholderTokens tgt
  if pySorted src_tokens ≠ pySorted tgt_tokens then
    some ⟨uid, "PLACEHOLDER_MISMATCH",
      "Source=" ++ pyListRepr src_tokens ++ ", Target=" ++ pyListRepr tgt_tokens,
      src, tgt⟩
  else none

/-- `check_numbers` of `translation_checker.py`. -/
def check_numbers (uid : Option String) (src tgt : String) : Option QAIssue :=
  let nums_src := findNumberTokens src
  let nums_tgt := findNumberTokens tgt
  if pySorted nums_src ≠ pySorted nums_tgt then
    some ⟨uid, "NUM_MISMATCH",
      "Source=" ++ pyListRepr nums_src ++ ", Target=" ++ pyListRepr nums_tgt,
      src, tgt⟩
  else none

/-- `check_tags` of `translation_checker.py`. -/
def check_tags (uid : Option String) (src tgt : String) : Option QAIssue :=
  let tags_src := findTagTokens src
  let tags_tgt := findTagTokens tgt
  if pySorted tags_src ≠ pySorted tags_tgt then
    some ⟨uid, "TAG_MISMATCH",
      "Source=" ++ pyListRepr tags_src ++ ", Target=" ++ pyListRepr tags_tgt,
      src, tgt⟩
  else none

/-- `check_empty` of `translation_checker.py`. -/
def check_empty (uid : Option String) (src tgt : String) : Option QAIssue :=
  if pyStrip src ≠ "" ∧ pyStrip tgt = "" then
    some ⟨uid, "EMPTY_TARGET", "Target is empty", src, tgt⟩
  else none

/-- `check_glossary` of `translation_checker.py`: iterate the glossary in
insertion order, report the first violated entry only. -/
def check_glossary (uid : Option String) (src tgt : String) :
    List (String × String) → Option QAIssue
  | [] => none
  | (s_term, t_term) :: rest =>
    if pyIn s_term src ∧ ¬ pyIn t_term tgt then
      some ⟨uid, "GLOSSARY_MISMATCH",
        "Expected '" ++ s_term ++ "' -> '" ++ t_term ++ "'", src, tgt⟩
    else check_glossary uid src tgt rest

/-- Round-half-to-even to an integer (the rounding used by Python's
fixed-point string formatting, modelled exactly over `ℚ`). -/
def roundHalfEven (q : ℚ) : ℤ :=
  let f := ⌊q⌋
  let r := q - (f : ℚ)
  if r < 1 / 2 then f
  else if 1 / 2 < r then f + 1
  else if f % 2 = 0 then f else f + 1

/-- Model of `f"{x:.2f}"` for a nonnegative rational. -/
def formatRatio2 (q : ℚ) : String :=
  let m := (roundHalfEven (q * 100)).toNat
  toString (m / 100) ++ "." ++
    (if m % 100 < 10 then "0" ++ toString (m % 100) else toString (m % 100))

/-- `len(tgt) / max(1, len(src))` of `run_checks` (exact over `ℚ`). -/
def ratioOf (src tgt : String) : ℚ :=
  (tgt.length : ℚ) / ((max 1 src.length : ℕ) : ℚ)

/-- The inline length-ratio check of `run_checks`
(`translation_checker.py` lines 157-162): fires when both texts are
truthy (non-empty) and the ratio falls outside the closed bounds. -/
def lengthRatioCheck (uid : Option String) (src tgt : String)
    (lims : ℚ × ℚ) : Option QAIssue :=
  if src ≠ "" ∧ tgt ≠ "" then
    let ratio := ratioOf src tgt
    if ¬ (lims.1 ≤ ratio ∧ ratio ≤ lims.2) then
      some ⟨uid, "LENGTH_RATIO", "Ratio=" ++ formatRatio2 ratio, src, tgt⟩
    else none
  else none

/-- The fixed check list `[check_placeholders, check_numbers, check_tags,
check_empty]` iterated by the loop of `run_checks`. -/
def checksList : List (Option String → String → String → Option QAIssue) :=
  [check_placeholders, check_numbers, check_tags, check_empty]

/-- `if issue: issues.append(issue)` of the `run_checks` loop. -/
def appendOpt (l : List QAIssue) (o : Option QAIssue) : List QAIssue :=
  match o with
  | some i => l ++ [i]
  | none => l

/-- The body of the `for p in pairs` loop of `run_checks`, appending the
issues fired for pair `p` to the accumulator. `if glossary:` is Python
truthiness: `None` and the empty dict both skip the glossary check. -/
def stepPair (glossary : Option (List (String × String))) (lims : ℚ × ℚ)
    (issues : List QAIssue) (p : SegPair) : List QAIssue :=
  let uid := p.id
  let src := p.source.getD ""
  let tgt := p.target.getD ""
  let issues := appendOpt issues (lengthRatioCheck uid src tgt lims)
  let issues := checksList.foldl (fun issues check =>
    appendOpt issues (check uid src tgt)) issues
  match glossary with
  | some gl =>
      if gl ≠ [] then appendOpt issues (check_glossary uid src tgt gl)
      else issues
  | none => issues

/-- `run_checks` of `translation_checker.py`. In Python the defaults are
`glossary=None`, `config=None`, `length_ratio_limits=(0.5, 3.0)`; here all
arguments are passed explicitly. `config` is accepted (at any type) and
never read, exactly as in the source. -/
def runChecks {Cfg : Type} (pairs : List SegPair)
    (glossary : Option (List (String × String))) (config : Option Cfg)
    (lims : ℚ × ℚ) : List QAIssue × Stats :=
  let issues := pairs.foldl (stepPair glossary lims) []
  (issues, ⟨pairs.length, issues.length⟩)

/-- The issues `run_checks` fires for one pair, in rule order:
length ratio, placeholders, numbers, tags, empty target, glossary. -/
def pairIssues (glossary : Option (List (String × String))) (lims : ℚ × ℚ)
    (p : SegPair) : List QAIssue :=
  let uid := p.id
  let src := p.source.getD ""
  let tgt := p.target.getD ""
  (lengthRatioCheck uid src tgt lims).toList
    ++ (check_placeholders uid src tgt).toList
    ++ (check_numbers uid src tgt).toList
    ++ (check_tags uid src tgt).toList
    ++ (check_empty uid src tgt).toList
    ++ (match glossary with
        | some gl => if gl ≠ [] then (check_glossary uid src tgt gl).toList else []
        | none => [])

/-- Python `dict` assignment `d[k] = v` on an insertion-ordered
association list: replace in place if the key exists, else append. -/
def dictInsert : List (String × α) → String → α → List (String × α)
  | [], k, v => [(k, v)]
  | e :: es, k, v => if e.1 = k then (k, v) :: es else e :: dictInsert es k v

/-- Python `d.get(k)` (keys unique by construction of `dictInsert`). -/
def dictGet (d : List (String × α)) (k : String) : Option α :=
  (d.find? (fun e => e.1 = k)).map (·.2)

/-- Python `list(d.keys())`. -/
def dictKeys (d : List (String × α)) : List String :=
  d.map (·.1)

/-- Python `list(dict.fromkeys(l))`: deduplicate preserving first
occurrence. -/
def dedupFirst (l : List String) : List String :=
  l.foldl (fun acc k => if k ∈ acc then acc else acc ++ [k]) []

/-- `p.get('id') or str(i+1)` of `streamlit_app.py` (`i` 0-based):
a missing or empty (falsy) id falls back to the 1-based position. -/
def effectiveId (i : ℕ) (p : SegPair) : String :=
  match p.id with
  | some s => if s = "" then toString (i + 1) else s
  | none => toString (i + 1)

/-- `{p.get('id') or str(i+1): p for i, p in enumerate(ps)}` of
`streamlit_app.py` lines 92-93. -/
def buildMap (ps : List SegPair) : List (String × SegPair) :=
  ps.enum.foldl (fun d ip => dictInsert d (effectiveId ip.1 ip.2) ip.2) []

/-- Output record of the merge in `streamlit_app.py`: a dict with all
three keys present. -/
structure MergeRec where
  id : String
  source : String
  target : String
deriving DecidableEq, Repr

/-- The `combined` merge of `streamlit_app.py` lines 92-102: ordered,
first-occurrence-deduplicated union of the two key lists; each output
pair takes the source side's `source` text and the target side's
`target` text, defaulting to the empty string. -/
def combined (srcPairs tgtPairs : List SegPair) : List MergeRec :=
  let src_map := buildMap srcPairs
  let tgt_map := buildMap tgtPairs
  let all_ids := dedupFirst (dictKeys src_map ++ dictKeys tgt_map)
  all_ids.map (fun uid =>
    { id := uid
      source := ((dictGet src_map uid).bind SegPair.source).getD ""
      target := ((dictGet tgt_map uid).bind SegPair.target).getD "" })

/-- One `csv.DictReader` row: header-name-to-cell association list. -/
def GlossaryRow : Type := List (String × String)

/-- `row.get(k)` on a `DictReader` row. -/
def rowGet (row : GlossaryRow) (k : String) : Option String :=
  (row.find? (fun e => e.1 = k)).map (·.2)

/-- Python `a or b` where `a`, `b` are `str`-or-`None`: yields `b`
when `a` is `None` or the empty string. -/
def pyOr (a b : Option String) : Option String :=
  match a with
  | some s => if s = "" then b else some s
  | none => b

/-- The body of the row loop of `load_glossary`
(`translation_checker.py` lines 92-96): take
`row.get("source") or row.get("Source")` and likewise for target, and
when both are truthy store `glossary[src.strip()] = tgt.strip()`. -/
def stepGloss (glossary : List (String × String)) (row : GlossaryRow) :
    List (String × String) :=
  match pyOr (rowGet row "source") (rowGet row "Source"),
        pyOr (rowGet row "target") (rowGet row "Target") with
  | some s, some t =>
      if s ≠ "" ∧ t ≠ "" then dictInsert glossary (pyStrip s) (pyStrip t)
      else glossary
  | _, _ => glossary

/-- `load_glossary` of `translation_checker.py` lines 88-97, modelled
from the row list the `csv.DictReader` yields. -/
def loadGlossary (rows : List GlossaryRow) : List (String × String) :=
  rows.foldl stepGloss []

theorem appendOpt_eq (l : List QAIssue) (o : Option QAIssue) :
    appendOpt l o = l ++ o.toList := by
  cases o <;> simp [appendOpt]

theorem stepPair_eq (g : Option (List (String × String))) (lims : ℚ × ℚ)
    (acc : List QAIssue) (p : SegPair) :
    stepPair g lims acc p = acc ++ pairIssues g lims p := by
  unfold stepPair pairIssues
  cases g with
  | none =>
      simp [checksList, appendOpt_eq, List.append_assoc]
  | some gl =>
      by_cases hgl : gl ≠ [] <;>
        simp [checksList, appendOpt_eq, hgl, List.append_assoc]

theorem foldl_stepPair (g : Option (List (String × String))) (lims : ℚ × ℚ) :
    ∀ (pairs : List SegPair) (acc : List QAIssue),
      pairs.foldl (stepPair g lims) acc = acc ++ pairs.flatMap (pairIssues g lims)
  | [], acc => by simp
  | p :: ps, acc => by
      simp [List.foldl_cons, stepPair_eq, foldl_stepPair g lims ps,
        List.append_assoc]

theorem runChecks_fst {Cfg : Type} (pairs : List SegPair)
    (g : Option (List (String × String))) (c : Option Cfg) (lims : ℚ × ℚ) :
    (runChecks pairs g c lims).1 = pairs.flatMap (pairIssues g lims) := by
  unfold runChecks
  simpa using foldl_stepPair g lims pairs []

/-- Claim C1: `run_checks` evaluates each pair in input order, checking
LENGTH_RATIO first, then PLACEHOLDER_MISMATCH, NUM_MISMATCH, TAG_MISMATCH,
EMPTY_TARGET in that fixed order, then GLOSSARY_MISMATCH when a glossary
is supplied; the returned issue list is exactly the concatenation, in pair
order, of each pair's issues in that rule order (pair-order-major,
rule-order-minor, as spelled out by `pairIssues`). -/
theorem claim_C1_issue_order {Cfg : Type} (pairs : List SegPair)
    (g : Option (List (String × String))) (c : Option Cfg) (lims : ℚ × ℚ) :
    (runChecks pairs g c lims).1 = pairs.flatMap (pairIssues g lims) :=
  runChecks_fst pairs g c lims

/-- Claim C2: the stats record of `run_checks` has `total` equal to the
number of input pairs and `issues` equal to the length of the returned
issue list, for every input. -/
theorem claim_C2_stats {Cfg : Type} (pairs : List SegPair)
    (g : Option (List (String × String))) (c : Option Cfg) (lims : ℚ × ℚ) :
    (runChecks pairs g c lims).2.total = pairs.length ∧
      (runChecks pairs g c lims).2.issues = (runChecks pairs g c lims).1.length :=
  ⟨rfl, rfl⟩

/-- Claim C8: `run_checks` never reads `config`: for any two config
values, of any two types (covering `None` and arbitrary objects), the
returned issue list and stats are identical. -/
theorem claim_C8_config_ignored {CfgA CfgB : Type} (pairs : List SegPair)
    (g : Option (List (String × String))) (c1 : Option CfgA)
    (c2 : Option CfgB) (lims : ℚ × ℚ) :
    runChecks pairs g c1 lims = runChecks pairs g c2 lims :=
  rfl

/-- Claim C5: the pair source `"Please confirm"`, target `""` produces,
under default ratio limits, exactly one issue: EMPTY_TARGET with details
`Target is empty`; no other rule fires on that pair. -/
theorem claim_C5_empty_target :
    runChecks [⟨some "1", some "Please confirm", some ""⟩] none
        (none : Option Unit) ((1 : ℚ)/2, 3) =
      ([⟨some "1", "EMPTY_TARGET", "Target is empty", "Please confirm", ""⟩],
        ⟨1, 1⟩) := by
  decide

theorem check_placeholders_some (uid : Option String) (src tgt : String)
    (i : QAIssue) (h : check_placeholders uid src tgt = some i) :
    i.uid = uid ∧ i.issue_type = "PLACEHOLDER_MISMATCH" := by
  simp only [check_placeholders] at h
  split at h
  · injection h with h'
    subst h'
    exact ⟨rfl, rfl⟩
  · exact Option.noConfusion h

theorem check_numbers_some (uid : Option String) (src tgt : String)
    (i : QAIssue) (h : check_numbers uid src tgt = some i) :
    i.uid = uid ∧ i.issue_type = "NUM_MISMATCH" := by
  simp only [check_numbers] at h
  split at h
  · injection h with h'
    subst h'
    exact ⟨rfl, rfl⟩
  · exact Option.noConfusion h

theorem check_tags_some (uid : Option String) (src tgt : String)
    (i : QAIssue) (h : check_tags uid src tgt = some i) :
    i.uid = uid ∧ i.issue_type = "TAG_MISMATCH" := by
  simp only [check_tags] at h
  split at h
  · injection h with h'
    subst h'
    exact ⟨rfl, rfl⟩
  · exact Option.noConfusion h

theorem check_empty_some (uid : Option String) (src tgt : String)
    (i : QAIssue) (h : check_empty uid src tgt = some i) :
    i.uid = uid ∧ i.issue_type = "EMPTY_TARGET" := by
  simp only [check_empty] at h
  split at h
  · injection h with h'
    subst h'
    exact ⟨rfl, rfl⟩
  · exact Option.noConfusion h

theorem check_glossary_some (uid : Option String) (src tgt : String) :
    ∀ (gl : List (String × String)) (i : QAIssue),
      check_glossary uid src tgt gl = some i →
      i.uid = uid ∧ i.issue_type = "GLOSSARY_MISMATCH"
  | [], i, h => by simp [check_glossary] at h
  | (s, t) :: rest, i, h => by
      rw [check_glossary] at h
      split at h
      · injection h with h'
        subst h'
        exact ⟨rfl, rfl⟩
      · exact check_glossary_some uid src tgt rest i h

theorem lengthRatioCheck_some (uid : Option String) (src tgt : String)
    (lims : ℚ × ℚ) (i : QAIssue) (h : lengthRatioCheck uid src tgt lims = some i) :
    i.uid = uid ∧ i.issue_type = "LENGTH_RATIO" ∧
      i.details = "Ratio=" ++ formatRatio2 (ratioOf src tgt) ∧
      i.source = src ∧ i.target = tgt := by
  simp only [lengthRatioCheck] at h
  split at h
  · split at h
    · injection h with h'
      subst h'
      exact ⟨rfl, rfl, rfl, rfl, rfl⟩
    · exact Option.noConfusion h
  · exact Option.noConfusion h

theorem ratioOf_Hello_ab : ratioOf "Hello" "ab" = 2/5 := by
  have h1 : ("Hello" : String).length = 5 := rfl
  have h2 : ("ab" : String).length = 2 := rfl
  unfold ratioOf
  rw [h1, h2]
  norm_num

theorem ratioOf_Hello_abc : ratioOf "Hello" "abc" = 3/5 := by
  have h1 : ("Hello" : String).length = 5 := rfl
  have h2 : ("abc" : String).length = 3 := rfl
  unfold ratioOf
  rw [h1, h2]
  norm_num

theorem formatRatio2_two_fifths : formatRatio2 (2/5 : ℚ) = "0.40" := by
  have hm : ((2/5 : ℚ) * 100) = 40 := by norm_num
  have h : roundHalfEven ((2/5 : ℚ) * 100) = 40 := by
    rw [hm]
    unfold roundHalfEven
    norm_num
  unfold formatRatio2
  rw [h]
  decide

/-- Claim C3: LENGTH_RATIO fires iff both texts are non-empty and
`len(target)/max(1,len(source))` lies strictly outside the closed
interval `[min_ratio, max_ratio]`, with details `Ratio=` followed by the
value to two decimals; with limits `(0.5, 3.0)`, source `"Hello"` and a
2-character target fires with details exactly `Ratio=0.40`, while a
3-character target does not fire. -/
theorem claim_C3_length_ratio (uid : Option String) (src tgt : String)
    (lims : ℚ × ℚ) :
    ((lengthRatioCheck uid src tgt lims).isSome ↔
      (src ≠ "" ∧ tgt ≠ "" ∧
        ¬ (lims.1 ≤ ratioOf src tgt ∧ ratioOf src tgt ≤ lims.2)))
    ∧ (∀ iss, lengthRatioCheck uid src tgt lims = some iss →
        iss = ⟨uid, "LENGTH_RATIO",
          "Ratio=" ++ formatRatio2 (ratioOf src tgt), src, tgt⟩)
    ∧ lengthRatioCheck (some "1") "Hello" "ab" ((1 : ℚ)/2, 3) =
        some ⟨some "1", "LENGTH_RATIO", "Ratio=0.40", "Hello", "ab"⟩
    ∧ lengthRatioCheck (some "1") "Hello" "abc" ((1 : ℚ)/2, 3) = none := by
  refine ⟨?_, ?_, ?_, ?_⟩
  · simp only [lengthRatioCheck]
    split_ifs with h1 h2 <;> simp_all
  · intro iss h
    simp only [lengthRatioCheck] at h
    split at h
    · split at h
      · injection h with h'
        exact h'.symm
      · exact Option.noConfusion h
    · exact Option.noConfusion h
  · simp only [lengthRatioCheck]
    rw [if_pos (by decide : ¬("Hello" : String) = "" ∧ ¬("ab" : String) = "")]
    rw [ratioOf_Hello_ab]
    rw [if_pos (by norm_num : ¬((1 : ℚ)/2 ≤ 2/5 ∧ (2 : ℚ)/5 ≤ 3))]
    rw [formatRatio2_two_fifths]
    rfl
  · simp only [lengthRatioCheck]
    rw [if_pos (by decide : ¬("Hello" : String) = "" ∧ ¬("abc" : String) = "")]
    rw [ratioOf_Hello_abc]
    rw [if_neg (by norm_num : ¬¬((1 : ℚ)/2 ≤ 3/5 ∧ (3 : ℚ)/5 ≤ 3))]

/-- Witness for C3 at source `"Hello"`, target `"ab"`, limits
`(0.5, 3.0)`: the fired issue's details are exactly `Ratio=0.40`, which
is `Ratio=` followed by the two-decimal rendering of the ratio. -/
theorem claim_C3_witness :
    (⟨some "1", "LENGTH_RATIO", "Ratio=0.40", "Hello", "ab"⟩ : QAIssue) =
      ⟨some "1", "LENGTH_RATIO",
        "Ratio=" ++ formatRatio2 (ratioOf "Hello" "ab"), "Hello", "ab"⟩ :=
  ((claim_C3_length_ratio (some "1") "Hello" "ab" ((1 : ℚ)/2, 3)).2.1 _
    (claim_C3_length_ratio (some "1") "Hello" "ab" ((1 : ℚ)/2, 3)).2.2.1)

theorem check_glossary_eq_find (uid : Option String) (src tgt : String) :
    ∀ gl : List (String × String),
      check_glossary uid src tgt gl =
        (gl.find? (fun e => pyIn e.1 src && ! pyIn e.2 tgt)).map
          (fun e => ⟨uid, "GLOSSARY_MISMATCH",
            "Expected '" ++ e.1 ++ "' -> '" ++ e.2 ++ "'", src, tgt⟩)
  | [] => by simp [check_glossary]
  | (s, t) :: rest => by
      rw [check_glossary]
      by_cases hs : pyIn s src <;> by_cases ht : pyIn t tgt <;>
        simp [hs, ht, check_glossary_eq_find uid src tgt rest]

theorem countP_type_zero (o : Option QAIssue) (ty base : String)
    (h : ∀ i, o = some i → i.issue_type = ty) (hty : (ty == base) = false) :
    o.toList.countP (fun i => i.issue_type == base) = 0 := by
  cases o with
  | none => rfl
  | some i =>
      have hi := h i rfl
      simp [List.countP_cons, hi, hty]

theorem countP_toList_le_one (o : Option QAIssue) (pr : QAIssue → Bool) :
    o.toList.countP pr ≤ 1 := by
  cases o with
  | none => simp
  | some i => cases hpr : pr i <;> simp [List.countP_cons, hpr]

/-- Claim C4: per pair at most one GLOSSARY_MISMATCH issue is emitted;
`check_glossary` walks the glossary in definition order and reports
exactly the first entry whose source term occurs in the pair's source
while its target term does not occur in the pair's target, with details
`Expected '<source term>' -> '<target term>'`. -/
theorem claim_C4_glossary_first_only (uid : Option String) (src tgt : String)
    (gl : List (String × String)) (g : Option (List (String × String)))
    (lims : ℚ × ℚ) (p : SegPair) :
    check_glossary uid src tgt gl =
      (gl.find? (fun e => pyIn e.1 src && ! pyIn e.2 tgt)).map
        (fun e => ⟨uid, "GLOSSARY_MISMATCH",
          "Expected '" ++ e.1 ++ "' -> '" ++ e.2 ++ "'", src, tgt⟩)
    ∧ (pairIssues g lims p).countP
        (fun i => i.issue_type == "GLOSSARY_MISMATCH") ≤ 1 := by
  refine ⟨check_glossary_eq_find uid src tgt gl, ?_⟩
  simp only [pairIssues, List.countP_append]
  rw [countP_type_zero _ "LENGTH_RATIO" "GLOSSARY_MISMATCH"
      (fun i hi => ((lengthRatioCheck_some _ _ _ _ _ hi).2.1)) rfl]
  rw [countP_type_zero _ "PLACEHOLDER_MISMATCH" "GLOSSARY_MISMATCH"
      (fun i hi => ((check_placeholders_some _ _ _ _ hi).2)) rfl]
  rw [countP_type_zero _ "NUM_MISMATCH" "GLOSSARY_MISMATCH"
      (fun i hi => ((check_numbers_some _ _ _ _ hi).2)) rfl]
  rw [countP_type_zero _ "TAG_MISMATCH" "GLOSSARY_MISMATCH"
      (fun i hi => ((check_tags_some _ _ _ _ hi).2)) rfl]
  rw [countP_type_zero _ "EMPTY_TARGET" "GLOSSARY_MISMATCH"
      (fun i hi => ((check_empty_some _ _ _ _ hi).2)) rfl]
  simp only [Nat.zero_add]
  cases g with
  | none => simp
  | some gl2 =>
      by_cases hgl : gl2 ≠ [] <;> simp [hgl, countP_toList_le_one]

/-- Claim C9: records lacking `source` or `target` keys are handled
without error: each missing text field behaves as the empty string (the
run is unchanged if the missing fields are filled in with `""`), every
rule is still evaluated on every record, and a complete result covering
every supplied pair is returned. -/
theorem claim_C9_missing_text_fields {Cfg : Type} (pairs : List SegPair)
    (g : Option (List (String × String))) (c : Option Cfg) (lims : ℚ × ℚ) :
    runChecks pairs g c lims =
      runChecks (pairs.map (fun p =>
        ⟨p.id, some (p.source.getD ""), some (p.target.getD "")⟩)) g c lims
    ∧ (runChecks pairs g c lims).1 = pairs.flatMap (pairIssues g lims)
    ∧ (runChecks pairs g c lims).2.total = pairs.length := by
  have hpair : ∀ p : SegPair,
      pairIssues g lims ⟨p.id, some (p.source.getD ""), some (p.target.getD "")⟩ =
        pairIssues g lims p := by
    intro p
    simp [pairIssues]
  have h1 : (runChecks pairs g c lims).1 =
      (runChecks (pairs.map (fun p =>
        ⟨p.id, some (p.source.getD ""), some (p.target.getD "")⟩)) g c lims).1 := by
    rw [runChecks_fst, runChecks_fst]
    induction pairs with
    | nil => rfl
    | cons p ps ih => simp [hpair, ih]
  have h2 : (runChecks pairs g c lims).2 =
      (runChecks (pairs.map (fun p =>
        ⟨p.id, some (p.source.getD ""), some (p.target.getD "")⟩)) g c lims).2 := by
    show Stats.mk pairs.length (runChecks pairs g c lims).1.length = _
    rw [h1]
    simp [runChecks]
  exact ⟨Prod.ext h1 h2, runChecks_fst pairs g c lims, rfl⟩

/-- Claim C10: a pair record lacking an `id` key is still processed
(the full result is the concatenation of every pair's issues), and every
issue fired for such a pair carries `None` as its `uid`: `run_checks`
does not synthesize a positional identifier. -/
theorem claim_C10_missing_id {Cfg : Type} (pairs : List SegPair)
    (g : Option (List (String × String))) (c : Option Cfg) (lims : ℚ × ℚ) :
    (runChecks pairs g c lims).1 = pairs.flatMap (pairIssues g lims)
    ∧ ∀ (p : SegPair) (iss : QAIssue), p.id = none →
        iss ∈ pairIssues g lims p → iss.uid = none := by
  refine ⟨runChecks_fst pairs g c lims, ?_⟩
  intro p iss hid hmem
  simp only [pairIssues, List.mem_append, Option.mem_toList, Option.mem_def] at hmem
  rcases hmem with ((((h | h) | h) | h) | h) | h
  · exact ((lengthRatioCheck_some _ _ _ _ _ h).1).trans hid
  · exact ((check_placeholders_some _ _ _ _ h).1).trans hid
  · exact ((check_numbers_some _ _ _ _ h).1).trans hid
  · exact ((check_tags_some _ _ _ _ h).1).trans hid
  · exact ((check_empty_some _ _ _ _ h).1).trans hid
  · cases g with
    | none => simp at h
    | some gl =>
        dsimp only at h
        by_cases hgl : gl ≠ []
        · rw [if_pos hgl] at h
          simp only [Option.mem_toList, Option.mem_def] at h
          exact ((check_glossary_some _ _ _ _ _ h).1).trans hid
        · simp [hgl] at h

/-- Witness for C10: the record `{source: "Hi"}` (no `id`, no `target`)
fires EMPTY_TARGET, and the fired issue's `uid` is `None`. -/
theorem claim_C10_witness :
    (⟨none, some "Hi", none⟩ : SegPair).id = none ∧
    (⟨none, "EMPTY_TARGET", "Target is empty", "Hi", ""⟩ : QAIssue) ∈
      pairIssues none ((1 : ℚ)/2, 3) ⟨none, some "Hi", none⟩ ∧
    (⟨none, "EMPTY_TARGET", "Target is empty", "Hi", ""⟩ : QAIssue).uid = none :=
  ⟨rfl, by decide,
    (@claim_C10_missing_id Unit [⟨none, some "Hi", none⟩] none none
      ((1 : ℚ)/2, 3)).2 ⟨none, some "Hi", none⟩
      ⟨none, "EMPTY_TARGET", "Target is empty", "Hi", ""⟩ rfl (by decide)⟩

theorem dictGet_dictInsert {α : Type} (d : List (String × α)) (k k' : String)
    (v : α) :
    dictGet (dictInsert d k v) k' = if k' = k then some v else dictGet d k' := by
  induction d with
  | nil =>
      by_cases h : k' = k <;> simp [dictInsert, dictGet, h, eq_comm]
  | cons a es ih =>
      by_cases h1 : a.1 = k <;> by_cases h2 : k' = k <;>
        by_cases h3 : a.1 = k' <;>
        simp_all [dictInsert, dictGet, List.find?_cons]

/-- One glossary row read the way the spec describes the loader: the
source term is `row["source"]` or `row["Source"]` (exactly these two
capitalizations are aliased), likewise for the target; a row in which
either term is blank or missing contributes nothing; the surviving terms
are trimmed. -/
def specRowEntry (row : GlossaryRow) : Option (String × String) :=
  match pyOr (rowGet row "source") (rowGet row "Source"),
        pyOr (rowGet row "target") (rowGet row "Target") with
  | some s, some t =>
      if s ≠ "" ∧ t ≠ "" then some (pyStrip s, pyStrip t) else none
  | _, _ => none

theorem stepGloss_eq (g : List (String × String)) (row : GlossaryRow) :
    stepGloss g row =
      match specRowEntry row with
      | some e => dictInsert g e.1 e.2
      | none => g := by
  unfold stepGloss specRowEntry
  cases h1 : pyOr (rowGet row "source") (rowGet row "Source") with
  | none => rfl
  | some s =>
      cases h2 : pyOr (rowGet row "target") (rowGet row "Target") with
      | none => rfl
      | some t =>
          by_cases hc : s ≠ "" ∧ t ≠ "" <;> simp [hc]

theorem loadGlossary_fold (k : String) :
    ∀ (rows : List GlossaryRow) (g : List (String × String)),
      dictGet (rows.foldl stepGloss g) k =
        (((rows.filterMap specRowEntry).reverse.find?
            (fun e => e.1 = k)).map (·.2)).or (dictGet g k)
  | [], g => by simp
  | r :: rs, g => by
      rw [List.foldl_cons, loadGlossary_fold k rs (stepGloss g r), stepGloss_eq]
      cases hr : specRowEntry r with
      | none => simp [List.filterMap_cons, hr]
      | some e =>
          simp only [List.filterMap_cons, hr, List.reverse_cons,
            List.find?_append]
          rw [dictGet_dictInsert]
          cases hfind : ((rs.filterMap specRowEntry).reverse.find?
              (fun x => x.1 = k)) <;>
            by_cases hk : k = e.1 <;>
            simp [hfind, hk, List.find?_cons, eq_comm, Option.or]

/-- Counterexample to claim C7: a glossary table whose row carries the
source and target columns under the capitalization `SOURCE`/`TARGET`
(with non-blank terms) is NOT loaded: `load_glossary` only aliases the
exact spellings `source`/`Source` and `target`/`Target`, so the
resulting mapping is empty instead of containing `hello -> bonjour`. -/
theorem claim_C7_counterexample :
    loadGlossary [[("SOURCE", "hello"), ("TARGET", "bonjour")]] = [] ∧
      dictGet (loadGlossary [[("SOURCE", "hello"), ("TARGET", "bonjour")]])
        "hello" = none := by
  constructor <;> decide

/-- Claim C7 as amended: for every glossary table, `load_glossary`
produces the mapping of trimmed source term to trimmed required target
term over the rows whose `source`/`Source` and `target`/`Target` cells
(exactly these two capitalizations are aliased, not arbitrary
capitalization) are both non-blank; rows with a blank or missing term
are skipped, and a later duplicate key overwrites an earlier one. -/
theorem claim_C7_glossary_loading (rows : List GlossaryRow) (k : String) :
    dictGet (loadGlossary rows) k =
      (((rows.filterMap specRowEntry).reverse.find?
          (fun e => e.1 = k)).map (·.2)) := by
  rw [loadGlossary, loadGlossary_fold k rows []]
  cases ((rows.filterMap specRowEntry).reverse.find? (fun e => e.1 = k)) <;>
    simp [dictGet, Option.or]

/-- The identifier a record contributes under the claim's reading of an
already-identified list (every record carries a non-empty `id`). -/
def recId (p : SegPair) : String :=
  p.id.getD ""

theorem dictInsert_fresh {α : Type} (k : String) (v : α) :
    ∀ d : List (String × α), k ∉ dictKeys d → dictInsert d k v = d ++ [(k, v)]
  | [], _ => rfl
  | a :: es, h => by
      have h1 : ¬ a.1 = k := fun hak => h (by simp [dictKeys, hak])
      have h2 : k ∉ dictKeys es := fun hk => h (by simp [dictKeys] at hk ⊢; tauto)
      simp [dictInsert, h1, dictInsert_fresh k v es h2]

theorem buildMap_go :
    ∀ (ps : List SegPair) (n : ℕ) (d : List (String × SegPair)),
      (∀ p ∈ ps, ∃ s, p.id = some s ∧ s ≠ "") →
      (ps.map recId).Nodup →
      (∀ p ∈ ps, recId p ∉ dictKeys d) →
      (List.enumFrom n ps).foldl
          (fun d ip => dictInsert d (effectiveId ip.1 ip.2) ip.2) d =
        d ++ ps.map (fun p => (recId p, p))
  | [], n, d, _, _, _ => by simp
  | p :: ps, n, d, hid, hnd, hdis => by
      obtain ⟨s, hps, hs⟩ := hid p (List.mem_cons_self p ps)
      have heff : effectiveId n p = recId p := by
        simp [effectiveId, recId, hps, hs]
      have hfresh : recId p ∉ dictKeys d := hdis p (List.mem_cons_self p ps)
      have hstep : dictInsert d (effectiveId n p) p = d ++ [(recId p, p)] := by
        rw [heff]
        exact dictInsert_fresh _ _ _ hfresh
      have hnd' : (ps.map recId).Nodup := (List.nodup_cons.mp hnd).2
      have hhead : recId p ∉ ps.map recId := (List.nodup_cons.mp hnd).1
      have hdis' : ∀ q ∈ ps, recId q ∉ dictKeys (d ++ [(recId p, p)]) := by
        intro q hq hmem
        simp only [dictKeys, List.map_append, List.mem_append] at hmem
        rcases hmem with hmem | hmem
        · exact hdis q (List.mem_cons_of_mem p hq) hmem
        · simp at hmem
          exact hhead (hmem ▸ List.mem_map_of_mem recId hq)
      rw [List.enumFrom_cons, List.foldl_cons, hstep,
        buildMap_go ps (n + 1) (d ++ [(recId p, p)])
          (fun q hq => hid q (List.mem_cons_of_mem p hq)) hnd' hdis']
      simp

theorem buildMap_eq (ps : List SegPair)
    (hid : ∀ p ∈ ps, ∃ s, p.id = some s ∧ s ≠ "")
    (hnd : (ps.map recId).Nodup) :
    buildMap ps = ps.map (fun p => (recId p, p)) := by
  have h := buildMap_go ps 0 [] hid hnd (by simp [dictKeys])
  simpa [buildMap, List.enum] using h

theorem dictKeys_map_pair (ps : List SegPair) :
    dictKeys (ps.map (fun p => (recId p, p))) = ps.map recId := by
  simp [dictKeys, List.map_map]

theorem dictGet_map_pair (ps : List SegPair) (k : String) :
    dictGet (ps.map (fun p => (recId p, p))) k =
      ps.find? (fun p => recId p = k) := by
  induction ps with
  | nil => rfl
  | cons p ps ih =>
      by_cases h : recId p = k <;>
        simp [dictGet, List.find?_cons, h] <;>
        simpa [dictGet] using ih

/-- Claim C6: merging two already-identified pair lists (each record has
a non-empty `id`, unique within its list) emits one pair per identifier
in the ordered first-occurrence-deduplicated union of source-side then
target-side identifiers, taking the source side's `source` text (else
`""`) and the target side's `target` text (else `""`). -/
theorem claim_C6_id_merge (src tgt : List SegPair)
    (hs : ∀ p ∈ src, ∃ s, p.id = some s ∧ s ≠ "")
    (ht : ∀ p ∈ tgt, ∃ s, p.id = some s ∧ s ≠ "")
    (hnds : (src.map recId).Nodup) (hndt : (tgt.map recId).Nodup) :
    combined src tgt =
      (dedupFirst (src.map recId ++ tgt.map recId)).map (fun uid =>
        { id := uid
          source := ((src.find? (fun p => recId p = uid)).bind
            SegPair.source).getD ""
          target := ((tgt.find? (fun p => recId p = uid)).bind
            SegPair.target).getD "" }) := by
  simp only [combined]
  rw [buildMap_eq src hs hnds, buildMap_eq tgt ht hndt,
    dictKeys_map_pair, dictKeys_map_pair]
  simp only [dictGet_map_pair]

/-- Witness for C6: source list `[{id:"a",source:"X"}]` and target list
`[{id:"b",target:"Y"}]` (disjoint ids) merge to
`[{id:"a",source:"X",target:""}, {id:"b",source:"",target:"Y"}]`. -/
theorem claim_C6_witness :
    combined [⟨some "a", some "X", none⟩] [⟨some "b", none, some "Y"⟩] =
      [⟨"a", "X", ""⟩, ⟨"b", "", "Y"⟩] := by
  rw [claim_C6_id_merge [⟨some "a", some "X", none⟩] [⟨some "b", none, some "Y"⟩]
    (by intro p hp; rw [List.mem_singleton] at hp; subst hp
        exact ⟨"a", rfl, by decide⟩)
    (by intro p hp; rw [List.mem_singleton] at hp; subst hp
        exact ⟨"b", rfl, by decide⟩)
    (by decide) (by decide)]
  decide
